import Mathlib

/-!
Verification development for the gastown daemon lifecycle-and-health
subsystem.

Shallow embedding conventions:
* Go strings manipulated character-wise by the session-name grammar are
  modelled as `List Char` (`GoStr`); `gSplit`, `gJoin`, `goHasPre`
  model `strings.Split`, `strings.Join` and `strings.HasPrefix` on a
  single-character separator.
* `time.Time` values are modelled as `Int` seconds; the Go zero time is
  modelled as `Option.none` where the code only ever asks `IsZero`,
  and by the constant `goZeroTime` where the zero value itself enters
  arithmetic.  `time.Duration` constants are in seconds.
* External collaborators (tmux, the bd/gt CLIs, the filesystem, JSON and
  RFC3339 decoding from the Go standard library, duration formatting)
  are parameters of the functions that call them; the repository's own
  logic is translated directly.
-/

namespace GT

/-! ### Go string helpers (session-name grammar, internal/session) -/

abbrev GoStr := List Char

def dash : Char := '-'

/-- The `Prefix` constant of internal/session/names.go, i.e. "gt-". -/
def gtPreS : GoStr := ['g', 't', '-']

def mayorS : GoStr := ['m', 'a', 'y', 'o', 'r']

def deaconS : GoStr := ['d', 'e', 'a', 'c', 'o', 'n']

def witnessS : GoStr := ['w', 'i', 't', 'n', 'e', 's', 's']

def refineryS : GoStr := ['r', 'e', 'f', 'i', 'n', 'e', 'r', 'y']

def crewS : GoStr := ['c', 'r', 'e', 'w']

/-- Model of Go `strings.Split(s, sep)` for a one-character separator. -/
def gSplit (sep : Char) : List Char → List (List Char)
  | [] => [[]]
  | c :: rest =>
    match gSplit sep rest with
    | [] => [[]]
    | p :: ps => if c = sep then [] :: p :: ps else (c :: p) :: ps

/-- Model of Go `strings.Join(parts, sep)` for a one-character separator. -/
def gJoin (sep : Char) : List (List Char) → List Char
  | [] => []
  | [p] => p
  | p :: ps => p ++ sep :: gJoin sep ps

/-- Model of Go `strings.HasPrefix`. -/
def goHasPre : List Char → List Char → Bool
  | [], _ => true
  | _ :: _, [] => false
  | a :: as, b :: bs => a == b && goHasPre as bs

/-- Model of the Go indexing `parts[len(parts)-1]` (last element,
default `d` on the empty list, which the call sites rule out). -/
def lastD (d : List Char) : List (List Char) → List Char
  | [] => d
  | [p] => p
  | _ :: ps => lastD d ps

/-! ### internal/session: agent identities (identity.go, names.go) -/

inductive Role where
  | mayor
  | deacon
  | witness
  | refinery
  | crew
  | polecat
deriving DecidableEq

/-- `AgentIdentity` of internal/session/identity.go. -/
structure AgentIdentity where
  role : Role
  town : GoStr := []
  rig : GoStr := []
  name : GoStr := []
deriving DecidableEq

def MayorSessionName (town : GoStr) : GoStr :=
  gtPreS ++ town ++ dash :: mayorS

def DeaconSessionName (town : GoStr) : GoStr :=
  gtPreS ++ town ++ dash :: deaconS

def WitnessSessionName (rig : GoStr) : GoStr :=
  gtPreS ++ rig ++ dash :: witnessS

def RefinerySessionName (rig : GoStr) : GoStr :=
  gtPreS ++ rig ++ dash :: refineryS

def CrewSessionName (rig name : GoStr) : GoStr :=
  gtPreS ++ rig ++ dash :: (crewS ++ dash :: name)

def PolecatSessionName (rig name : GoStr) : GoStr :=
  gtPreS ++ rig ++ dash :: name

/-- `AgentIdentity.SessionName` of internal/session/identity.go. -/
def AgentIdentity.SessionName (a : AgentIdentity) : GoStr :=
  match a.role with
  | .mayor => MayorSessionName a.town
  | .deacon => DeaconSessionName a.town
  | .witness => WitnessSessionName a.rig
  | .refinery => RefinerySessionName a.rig
  | .crew => CrewSessionName a.rig a.name
  | .polecat => PolecatSessionName a.rig a.name

/-- The Go loop `for i, p := range parts`, searching for the first index
with `p == "crew" && i > 0 && i < len(parts)-1`; `i` is the running
index and the second list argument the remaining elements. -/
def findCrewAux (parts : List GoStr) : Nat → List GoStr → Option Nat
  | _, [] => none
  | i, p :: ps =>
    if p = crewS ∧ 0 < i ∧ i < parts.length - 1 then some i
    else findCrewAux parts (i + 1) ps

/-- The first loop index `i` with `parts[i] == "crew" && i > 0 &&
i < len(parts)-1`, as in the crew-marker scan of `ParseSessionName`. -/
def findCrewIdx (parts : List GoStr) : Option Nat :=
  findCrewAux parts 0 parts

/-- The stage of `ParseSessionName` after `parts := strings.Split(suffix, "-")`
has been computed (split out as a helper for the proofs below). -/
def parseParts (parts : List GoStr) : Option AgentIdentity :=
  if parts.length < 2 then none
  else if lastD [] parts = mayorS then
    some { role := Role.mayor, town := gJoin dash parts.dropLast }
  else if lastD [] parts = deaconS then
    some { role := Role.deacon, town := gJoin dash parts.dropLast }
  else if lastD [] parts = witnessS then
    some { role := Role.witness, rig := gJoin dash parts.dropLast }
  else if lastD [] parts = refineryS then
    some { role := Role.refinery, rig := gJoin dash parts.dropLast }
  else
    match findCrewIdx parts with
    | some i =>
      some { role := Role.crew, rig := gJoin dash (parts.take i),
             name := gJoin dash (parts.drop (i + 1)) }
    | none =>
      if parts.length < 2 then none
      else
        some { role := Role.polecat, rig := gJoin dash parts.dropLast,
               name := lastD [] parts }

/-- `ParseSessionName` of internal/session/identity.go.  The
`strings.TrimPrefix` after the verified `HasPrefix` check is the
3-character drop. -/
def ParseSessionName (s : GoStr) : Option AgentIdentity :=
  if goHasPre gtPreS s = false then none
  else
    let sfx := s.drop 3
    if sfx = [] then none
    else parseParts (gSplit dash sfx)

/-- The identities on which the session-name round trip is provably
lossless: town-level and per-rig singleton roles with their unused
fields empty (any town/rig value), and crew/polecat identities whose
rig and name are hyphen-free and whose name is not one of the reserved
role markers. -/
def GoodIdentity (a : AgentIdentity) : Prop :=
  match a.role with
  | .mayor => a.rig = [] ∧ a.name = []
  | .deacon => a.rig = [] ∧ a.name = []
  | .witness => a.town = [] ∧ a.name = []
  | .refinery => a.town = [] ∧ a.name = []
  | .crew =>
      a.town = [] ∧ dash ∉ a.rig ∧ dash ∉ a.name ∧
        a.name ≠ mayorS ∧ a.name ≠ deaconS ∧ a.name ≠ witnessS ∧
          a.name ≠ refineryS
  | .polecat =>
      a.town = [] ∧ dash ∉ a.rig ∧ dash ∉ a.name ∧
        a.name ≠ mayorS ∧ a.name ≠ deaconS ∧ a.name ≠ witnessS ∧
          a.name ≠ refineryS

/-! ### internal/daemon/agent_health.go: health classification -/

/-- `AgentStatus` of agent_health.go. -/
inductive AgentStatus where
  | healthy
  | needsRespawn
  | waitingRespawn
  | stuck
deriving DecidableEq

/-- The seconds value of the Go zero `time.Time` on the epoch-relative
time line (year 1; `time.Since` of the zero value yields this huge
duration).  Times are `Int` seconds since the Unix epoch. -/
def goZeroTime : Int := -62135596800

/-- `t.getD goZeroTime` : the numeric value of an optional time whose
absence models the Go zero `time.Time`. -/
def timeValue (t : Option Int) : Int := t.getD goZeroTime

/-- `AgentHealthConfig` of agent_health.go.  `lastDeath = none` models
a zero `LastDeath` (the code only ever asks `IsZero` of it and
subtracts it inside a report string).  Durations are seconds. -/
structure AgentHealthConfig where
  role : String
  rigName : String := ""
  sessionName : String
  stuckThreshold : Int
  respawnDelay : Int
  lastDeath : Option Int := none

/-- `DefaultStuckThreshold` (15 minutes, in seconds). -/
def DefaultStuckThreshold : Int := 15 * 60

/-- `DefaultRespawnDelay` (30 seconds). -/
def DefaultRespawnDelay : Int := 30

/-- `CriticalStuckThreshold` (30 minutes, in seconds). -/
def CriticalStuckThreshold : Int := 30 * 60

/-- `AgentHealthResult` of agent_health.go.  `lastHeartbeat = none`
models the zero time (field left unset). -/
structure AgentHealthResult where
  status : AgentStatus
  sessionAlive : Bool
  heartbeatAge : Int
  lastHeartbeat : Option Int
  message : String

/-- The external observations consumed by one health evaluation:
the tmux `HasSession` probe outcome (`Except.error` models `err != nil`),
the result of `getLastPatrolCompleted` (a bd query; `none` models the
zero time), and the current time for `time.Since`. -/
structure AgentHealthInput where
  hasSession : Except String Bool
  lastPatrolCompleted : Option Int
  now : Int

/-- `respawnDelayElapsed` of agent_health.go. -/
def respawnDelayElapsed (cfg : AgentHealthConfig) (now : Int) : Bool :=
  match cfg.lastDeath with
  | none => true
  | some t => decide (now - t ≥ cfg.respawnDelay)

/-- The heartbeat age computed by `checkAgentHealth`: zero when no
heartbeat was ever recorded, `time.Since(lastHeartbeat)` otherwise. -/
def heartbeatAgeOf (inp : AgentHealthInput) : Int :=
  match inp.lastPatrolCompleted with
  | some t => inp.now - t
  | none => 0

/-- `checkAgentHealth` of agent_health.go.  `fmtDur` models the Go
formatting of a duration inside report strings (stdlib `fmt`/`time`);
it never influences the computed status. -/
def checkAgentHealth (fmtDur : Int → String) (cfg : AgentHealthConfig)
    (inp : AgentHealthInput) : AgentHealthResult :=
  match inp.hasSession with
  | .error e =>
    { status := AgentStatus.healthy, sessionAlive := false, heartbeatAge := 0,
      lastHeartbeat := none,
      message := "error checking session: " ++ e }
  | .ok sessionAlive =>
    let lastHeartbeat := inp.lastPatrolCompleted
    let hbAge := heartbeatAgeOf inp
    if !sessionAlive && respawnDelayElapsed cfg inp.now then
      { status := AgentStatus.needsRespawn, sessionAlive := sessionAlive,
        heartbeatAge := hbAge, lastHeartbeat := lastHeartbeat,
        message := "session dead, respawn delay elapsed" }
    else if !sessionAlive then
      { status := AgentStatus.waitingRespawn, sessionAlive := sessionAlive,
        heartbeatAge := hbAge, lastHeartbeat := lastHeartbeat,
        message := "session dead, waiting for respawn delay (" ++
          fmtDur (cfg.respawnDelay - (inp.now - timeValue cfg.lastDeath)) ++
            " remaining)" }
    else if sessionAlive && decide (hbAge > cfg.stuckThreshold) then
      if lastHeartbeat.isNone then
        { status := AgentStatus.healthy, sessionAlive := sessionAlive,
          heartbeatAge := hbAge, lastHeartbeat := lastHeartbeat,
          message := "no heartbeat yet (first startup)" }
      else
        { status := AgentStatus.stuck, sessionAlive := sessionAlive,
          heartbeatAge := hbAge, lastHeartbeat := lastHeartbeat,
          message := "session alive but heartbeat stale (" ++ fmtDur hbAge ++
            " old, threshold " ++ fmtDur cfg.stuckThreshold ++ ")" }
    else
      { status := AgentStatus.healthy, sessionAlive := sessionAlive,
        heartbeatAge := hbAge, lastHeartbeat := lastHeartbeat,
        message :=
          if hbAge > 0 then
            "healthy, last heartbeat " ++ fmtDur hbAge ++ " ago"
          else "healthy" }

/-- The tmux command issued by `handleStuckAgent` (logging elided). -/
inductive StuckRemediation where
  | killWithProcesses (session : String)
  | nudge (session : String) (msg : String)
deriving DecidableEq

/-- `handleStuckAgent` of agent_health.go: critically stuck agents
(heartbeat older than `CriticalStuckThreshold`) are killed with their
processes, moderately stuck agents are nudged. -/
def handleStuckAgent (fmtDur : Int → String) (cfg : AgentHealthConfig)
    (result : AgentHealthResult) : StuckRemediation :=
  if result.heartbeatAge > CriticalStuckThreshold then
    StuckRemediation.killWithProcesses cfg.sessionName
  else
    StuckRemediation.nudge cfg.sessionName
      ("HEALTH_CHECK: heartbeat stale (" ++ fmtDur result.heartbeatAge ++
        " old), please respond to confirm responsiveness")

/-! ### internal/daemon: respawn policy table -/

/-- `RespawnConfig` of agent_health.go (durations in seconds). -/
structure RespawnConfig where
  delay : Int
  stuckThreshold : Int
  trigger : String
deriving DecidableEq

/-- `DefaultRespawnConfigs` of agent_health.go. -/
def DefaultRespawnConfigs : List (String × RespawnConfig) :=
  [("deacon", { delay := 5 * 60, stuckThreshold := 15 * 60, trigger := "always" }),
   ("witness", { delay := 5 * 60, stuckThreshold := 10 * 60, trigger := "always" }),
   ("refinery", { delay := 0, stuckThreshold := 5 * 60, trigger := "mq-not-empty" })]

/-- `GetRespawnConfig` of agent_health.go: table lookup with a
conservative default for unknown roles. -/
def GetRespawnConfig (role : String) : RespawnConfig :=
  match DefaultRespawnConfigs.lookup role with
  | some cfg => cfg
  | none =>
    { delay := 5 * 60, stuckThreshold := 15 * 60, trigger := "always" }

/-! ### internal/daemon: persisted daemon state -/

/-- `AgentState` of the daemon state file (times as optional seconds). -/
structure AgentState where
  session : String := ""
  lastPatrolCompleted : Option Int := none
  respawnScheduledAt : Option Int := none
  lastExitedAt : Option Int := none
  exitReason : String := ""
deriving DecidableEq

/-- `State` of the daemon package. `agents` models the Go map
(`none` = key absent); the nil map is the constantly-`none` function. -/
structure State where
  running : Bool := false
  pid : Int := 0
  startedAt : Option Int := none
  lastHeartbeat : Option Int := none
  heartbeatCount : Int := 0
  agents : String → Option AgentState := fun _ => none

/-- `State.GetAgentState`: returns the entry for an agent, creating an
empty one in the map if needed (the returned map reflects the
creation, mirroring the Go mutation). -/
def State.GetAgentState (s : State) (agentID : String) :
    State × AgentState :=
  let agent := (s.agents agentID).getD {}
  ({ s with agents := fun k => if k = agentID then some agent else s.agents k },
    agent)

/-- `State.ScheduleRespawn` of the daemon package (`now` models
`time.Now()`). -/
def State.ScheduleRespawn (s : State) (agentID session role exitReason : String)
    (now : Int) : State :=
  let p := s.GetAgentState agentID
  let cfg := GetRespawnConfig role
  let agent :=
    { p.2 with
        session := session
        exitReason := exitReason
        lastExitedAt := some now
        respawnScheduledAt := some (now + cfg.delay) }
  { p.1 with agents := fun k => if k = agentID then some agent else p.1.agents k }

/-! ### internal/daemon lifecycle processor (lifecycle source file) -/

/-- `LifecycleAction` of the daemon package. -/
inductive LifecycleAction where
  | cycle
  | restart
  | shutdown
deriving DecidableEq

/-- The Go conversion `string(action)`. -/
def actionString : LifecycleAction → String
  | .cycle => "cycle"
  | .restart => "restart"
  | .shutdown => "shutdown"

/-- `LifecycleRequest` of the daemon package (timestamp in seconds). -/
structure LifecycleRequest where
  fromAddr : String
  action : LifecycleAction
  timestamp : Int
deriving DecidableEq

/-- `ParsedIdentity` of the lifecycle source file. -/
structure ParsedIdentity where
  roleType : String
  rigName : String := ""
  agentName : String := ""
deriving DecidableEq

/-- Go `strings.ToLower` (character-wise, over the string's data). -/
def goToLower (s : String) : String :=
  String.mk (s.data.map Char.toLower)

/-- Go `strings.HasPrefix` over a string's data. -/
def goStartsWith (s pre : String) : Bool :=
  pre.data.isPrefixOf s.data

/-- Go `strings.HasSuffix` over a string's data. -/
def goEndsWith (s suf : String) : Bool :=
  suf.data.isSuffixOf s.data

/-- The ASCII whitespace recognised by Go `strings.TrimSpace` (the
Unicode cases do not occur in lifecycle bodies). -/
def goIsSpace (c : Char) : Bool :=
  c = ' ' || c = '	' || c = '
' || c = ''

/-- Go `strings.TrimSpace`. -/
def goTrimSpace (s : String) : String :=
  String.mk (((s.data.dropWhile goIsSpace).reverse.dropWhile goIsSpace).reverse)

/-- Go `strings.TrimSuffix`. -/
def goTrimSuffix (s suf : String) : String :=
  if goEndsWith s suf then
    String.mk (s.data.take (s.data.length - suf.data.length))
  else s

/-- Split at the first occurrence of the (nonempty) separator:
`some (before, after)` when the separator occurs, `none` otherwise.
This is Go `strings.Contains` paired with `strings.SplitN(s, sep, 2)`. -/
def breakOn (sep : List Char) : List Char → Option (List Char × List Char)
  | [] => none
  | c :: rest =>
    if sep.isPrefixOf (c :: rest) then some ([], (c :: rest).drop sep.length)
    else
      match breakOn sep rest with
      | some (pre, post) => some (c :: pre, post)
      | none => none

/-- `parseIdentity` of the lifecycle source file.  The
`strings.Contains`-then-`SplitN 2` pairs are expressed through
`breakOn` (split at the first separator occurrence); the slash form
uses a full `strings.Split` with a length-2 check, i.e. exactly one
occurrence. -/
def parseIdentity (identity : String) : Except String ParsedIdentity :=
  if identity = "mayor" then Except.ok { roleType := "mayor" }
  else if identity = "deacon" then Except.ok { roleType := "deacon" }
  else if goEndsWith identity "-witness" then
    Except.ok { roleType := "witness", rigName := goTrimSuffix identity "-witness" }
  else if goEndsWith identity "-refinery" then
    Except.ok { roleType := "refinery", rigName := goTrimSuffix identity "-refinery" }
  else
    match breakOn "-crew-".data identity.data with
    | some (p0, p1) =>
      Except.ok { roleType := "crew", rigName := String.mk p0,
                  agentName := String.mk p1 }
    | none =>
      match breakOn "-polecat-".data identity.data with
      | some (q0, q1) =>
        Except.ok { roleType := "polecat", rigName := String.mk q0,
                    agentName := String.mk q1 }
      | none =>
        match breakOn "/polecats/".data identity.data with
        | some (r0, r1) =>
          if breakOn "/polecats/".data r1 = none then
            Except.ok { roleType := "polecat", rigName := String.mk r0,
                        agentName := String.mk r1 }
          else Except.error ("unknown identity format: " ++ identity)
        | none => Except.error ("unknown identity format: " ++ identity)

/-- Go `filepath.Join` on two components (empty components are skipped;
path cleaning is not modelled, which no claim depends on). -/
def goJoin2 (a b : String) : String :=
  if a = "" then b else if b = "" then a else a ++ "/" ++ b

/-- Go variadic `filepath.Join`. -/
def goJoin (parts : List String) : String :=
  parts.foldl goJoin2 ""

/-- `getWorkDir(nil, parsed)` of the lifecycle source file: the
hardcoded fallback working directories (the nil role-bead config is the
form used by `identityToStateFile`). -/
def getWorkDirDefault (townRoot : String) (p : ParsedIdentity) : String :=
  if p.roleType = "mayor" then townRoot
  else if p.roleType = "deacon" then townRoot
  else if p.roleType = "witness" then goJoin [townRoot, p.rigName]
  else if p.roleType = "refinery" then
    goJoin [townRoot, p.rigName, "refinery", "rig"]
  else if p.roleType = "crew" then
    goJoin [townRoot, p.rigName, "crew", p.agentName]
  else if p.roleType = "polecat" then
    goJoin [townRoot, p.rigName, "polecats", p.agentName]
  else ""

/-- `identityToStateFile` of the lifecycle source file. -/
def identityToStateFile (townRoot identity : String) : String :=
  match parseIdentity identity with
  | .error _ => ""
  | .ok parsed =>
    let workDir := getWorkDirDefault townRoot parsed
    if workDir = "" then ""
    else if parsed.roleType = "mayor" then
      goJoin [townRoot, "mayor", "state.json"]
    else if parsed.roleType = "deacon" then
      goJoin [townRoot, "deacon", "state.json"]
    else if parsed.roleType = "witness" then
      goJoin [townRoot, parsed.rigName, "witness", "state.json"]
    else if parsed.roleType = "refinery" then
      goJoin [townRoot, parsed.rigName, "refinery", "state.json"]
    else goJoin [workDir, "state.json"]

/-- A JSON value as decoded into Go `map[string]interface...` entries
(the shapes relevant to the requesting-flag check). -/
inductive GoVal where
  | bool (b : Bool)
  | str (s : String)
  | num (n : Int)
  | null
deriving DecidableEq

/-- Rendering of a `GoVal` inside an error message (Go `%v`). -/
def goValStr : GoVal → String
  | .bool true => "true"
  | .bool false => "false"
  | .str s => s
  | .num n => toString n
  | .null => "<nil>"

/-- Outcome of reading and JSON-decoding an agent state file:
`missing` models `os.IsNotExist`, `readError` any other read error,
`invalid` a `json.Unmarshal` failure, `valid` the decoded object
(a function models the Go map; `none` = key absent). -/
inductive AgentStateFile where
  | missing
  | readError (e : String)
  | invalid (e : String)
  | valid (fields : String → Option GoVal)

/-- The external collaborators of `executeLifecycleAction`:
the workspace root, the session-name resolution applied after a
successful `parseIdentity` (role-bead config plus hardcoded fallbacks,
all external lookups), the filesystem read of agent state files, the
tmux `HasSession`/`KillSession` probes and the outcome of
`restartSession` (whose body is tmux/git-heavy). -/
structure ExecEnv where
  townRoot : String
  sessionFor : ParsedIdentity → String
  readFile : String → AgentStateFile
  hasSession : String → Except String Bool
  killResult : String → Except String Unit
  restartResult : String → Except String Unit

/-- `identityToSession` of the lifecycle source file: an unparseable
identity yields the empty session name; otherwise the session name is
resolved from role-bead config or hardcoded patterns (external data,
modelled by `ExecEnv.sessionFor`, which may also yield the empty
string as the Go fallbacks can). -/
def identityToSession (env : ExecEnv) (identity : String) : String :=
  match parseIdentity identity with
  | .error _ => ""
  | .ok parsed => env.sessionFor parsed

/-- `verifyAgentRequestingState` of the lifecycle source file: before a
kill, the requester's own durable state file must carry
`requesting_<action> = true`.  An undeterminable state file path only
logs a warning and skips verification (backwards compatibility). -/
def verifyAgentRequestingState (env : ExecEnv) (identity : String)
    (action : LifecycleAction) : Except String Unit :=
  let stateFile := identityToStateFile env.townRoot identity
  if stateFile = "" then Except.ok ()
  else
    match env.readFile stateFile with
    | .missing =>
      Except.error ("agent state file not found: " ++ stateFile ++
        " (agent must set requesting_" ++ actionString action ++
          "=true before lifecycle request)")
    | .readError e => Except.error ("reading agent state: " ++ e)
    | .invalid e => Except.error ("parsing agent state: " ++ e)
    | .valid fields =>
      match fields ("requesting_" ++ actionString action) with
      | none =>
        Except.error ("agent state missing requesting_" ++
          actionString action ++
            " field (agent must set this before lifecycle request)")
      | some (.bool true) => Except.ok ()
      | some v =>
        Except.error ("agent state requesting_" ++ actionString action ++
          " is not true (got: " ++ goValStr v ++ ")")

/-- The externally visible session commands issued by
`executeLifecycleAction` (log lines elided; `clearRequestingState`
stands for the state-file rewrite of `clearAgentRequestingState`). -/
inductive TmuxOp where
  | killSession (s : String)
  | restartSession (s : String)
  | clearRequestingState (identity : String) (action : LifecycleAction)
deriving DecidableEq

/-- `executeLifecycleAction` of the lifecycle source file, returning
its error outcome together with the trace of session commands it
issued, in order.  The read-only agent-bead state log line and the
`time.Sleep` between kill and restart are elided; a failure of
`clearAgentRequestingState` is only logged, so its outcome does not
appear. -/
def executeLifecycleAction (env : ExecEnv) (req : LifecycleRequest) :
    Except String Unit × List TmuxOp :=
  let sessionName := identityToSession env req.fromAddr
  if sessionName = "" then
    (Except.error ("unknown agent identity: " ++ req.fromAddr), [])
  else
    match verifyAgentRequestingState env req.fromAddr req.action with
    | .error e => (Except.error ("state verification failed: " ++ e), [])
    | .ok _ =>
      match env.hasSession sessionName with
      | .error e => (Except.error ("checking session: " ++ e), [])
      | .ok running =>
        match req.action with
        | .shutdown =>
          if running then
            match env.killResult sessionName with
            | .error e =>
              (Except.error ("killing session: " ++ e),
                [TmuxOp.killSession sessionName])
            | .ok _ => (Except.ok (), [TmuxOp.killSession sessionName])
          else (Except.ok (), [])
        | _ =>
          let killPhase : Except String Unit × List TmuxOp :=
            if running then
              match env.killResult sessionName with
              | .error e =>
                (Except.error ("killing session: " ++ e),
                  [TmuxOp.killSession sessionName])
              | .ok _ => (Except.ok (), [TmuxOp.killSession sessionName])
            else (Except.ok (), [])
          match killPhase with
          | (.error e, ops) => (Except.error e, ops)
          | (.ok _, ops) =>
            match env.restartResult sessionName with
            | .error e =>
              (Except.error ("restarting session: " ++ e),
                ops ++ [TmuxOp.restartSession sessionName])
            | .ok _ =>
              (Except.ok (),
                ops ++ [TmuxOp.restartSession sessionName,
                  TmuxOp.clearRequestingState req.fromAddr req.action])

/-- `BeadsMessage` of the lifecycle source file (`fromAddr` is the Go
`From` field, `msgType` the `Type` field). -/
structure BeadsMessage where
  id : String
  fromAddr : String
  toAddr : String := ""
  subject : String
  body : String
  timestamp : String
  read : Bool
  priority : String := ""
  msgType : String := ""
deriving DecidableEq

/-- `MaxLifecycleMessageAge` (6 hours, in seconds). -/
def MaxLifecycleMessageAge : Int := 6 * 60 * 60

/-- The external collaborators of `ProcessLifecycleRequests`:
`jsonAction` models `json.Unmarshal` into `LifecycleBody` (`none` is a
decode error, `some a` the decoded `Action` field), `parseRFC3339`
models `time.Parse(time.RFC3339, _)` in seconds, `now` the current
time, `deleteOk` whether `gt mail delete` succeeds for a message id
(the code proceeds either way). -/
structure MailEnv where
  jsonAction : String → Option String
  parseRFC3339 : String → Option Int
  now : Int
  deleteOk : String → Bool

/-- `parseLifecycleRequest` of the lifecycle source file: subject gate,
structured body decode with plain-text fallbacks, and the mapping of
the action string onto the enum. -/
def parseLifecycleRequest (menv : MailEnv) (msg : BeadsMessage) :
    Option LifecycleRequest :=
  if !(goStartsWith (goToLower msg.subject) "lifecycle:") then none
  else
    let actionOpt : Option String :=
      match menv.jsonAction msg.body with
      | some a => some a
      | none =>
        let bodyLower := goToLower (goTrimSpace msg.body)
        if bodyLower = "restart" ∨ bodyLower = "action: restart" then
          some "restart"
        else if bodyLower = "shutdown" ∨ bodyLower = "action: shutdown" ∨
            bodyLower = "stop" then
          some "shutdown"
        else if bodyLower = "cycle" ∨ bodyLower = "action: cycle" then
          some "cycle"
        else none
    match actionOpt with
    | none => none
    | some a =>
      let al := goToLower a
      if al = "restart" then
        some { fromAddr := msg.fromAddr, action := LifecycleAction.restart,
               timestamp := menv.now }
      else if al = "shutdown" ∨ al = "stop" then
        some { fromAddr := msg.fromAddr, action := LifecycleAction.shutdown,
               timestamp := menv.now }
      else if al = "cycle" then
        some { fromAddr := msg.fromAddr, action := LifecycleAction.cycle,
               timestamp := menv.now }
      else none

deriving instance DecidableEq for Except

/-- One observable step of the `ProcessLifecycleRequests` loop: a
`gt mail delete` call, or an `executeLifecycleAction` call with its
outcome and issued session commands. -/
inductive LoopEvent where
  | deleted (id : String)
  | executed (req : LifecycleRequest) (result : Except String Unit)
      (ops : List TmuxOp)
deriving DecidableEq

/-- The body of the `ProcessLifecycleRequests` loop for one message:
skip read messages and non-lifecycle messages; delete stale requests
unexecuted; otherwise delete first (claim), then execute. -/
def processMessage (menv : MailEnv) (eenv : ExecEnv) (msg : BeadsMessage) :
    List LoopEvent :=
  if msg.read then []
  else
    match parseLifecycleRequest menv msg with
    | none => []
    | some req =>
      let claimThenExecute : List LoopEvent :=
        [LoopEvent.deleted msg.id,
          LoopEvent.executed req (executeLifecycleAction eenv req).1
            (executeLifecycleAction eenv req).2]
      match menv.parseRFC3339 msg.timestamp with
      | some t =>
        if menv.now - t > MaxLifecycleMessageAge then [LoopEvent.deleted msg.id]
        else claimThenExecute
      | none => claimThenExecute

/-- `ProcessLifecycleRequests` of the lifecycle source file, over the
successfully fetched and decoded inbox `msgs`, as the ordered trace of
its observable steps. -/
def ProcessLifecycleRequests (menv : MailEnv) (eenv : ExecEnv)
    (msgs : List BeadsMessage) : List LoopEvent :=
  msgs.flatMap (processMessage menv eenv)

/-- Whether the trace contains a `gt mail delete` call for `id`. -/
def deleteIssued (events : List LoopEvent) (id : String) : Bool :=
  events.any fun e =>
    match e with
    | .deleted i => i = id
    | _ => false

/-- The inbox contents after the loop: a message is gone exactly when a
delete was issued for its id and the mailbox delete succeeded. -/
def inboxAfter (deleteOk : String → Bool) (msgs : List BeadsMessage)
    (events : List LoopEvent) : List BeadsMessage :=
  msgs.filter fun m => !(deleteIssued events m.id && deleteOk m.id)

/-! ### Concrete sample data used by witnesses below -/

/-- A duration formatter for witness instantiations. -/
def fmtDurW : Int → String := fun _ => ""

/-- Scenario B of the spec: a witness agent with a 10-minute stuck
threshold. -/
def scenarioBCfg : AgentHealthConfig :=
  { role := "witness"
    rigName := "gastown"
    sessionName := "gt-gastown-witness"
    stuckThreshold := 10 * 60
    respawnDelay := DefaultRespawnDelay
    lastDeath := none }

/-- Scenario B observations: session alive, last heartbeat 20 minutes
ago. -/
def scenarioBInp : AgentHealthInput :=
  { hasSession := Except.ok true, lastPatrolCompleted := some 0, now := 20 * 60 }

/-- Observations of a dead session with a death recorded 10 seconds
ago. -/
def deadInp : AgentHealthInput :=
  { hasSession := Except.ok false, lastPatrolCompleted := none, now := 10 }

/-- Config with a recorded death 10 seconds before `deadInp.now` and a
5-minute respawn delay. -/
def deadCfg : AgentHealthConfig :=
  { role := "deacon"
    sessionName := "gt-town-deacon"
    stuckThreshold := DefaultStuckThreshold
    respawnDelay := 5 * 60
    lastDeath := some 0 }

/-- A stuck-classification result with a 20-minute-old heartbeat. -/
def stuckResultW : AgentHealthResult :=
  { status := AgentStatus.stuck
    sessionAlive := true
    heartbeatAge := 20 * 60
    lastHeartbeat := some 0
    message := "" }

/-- An execution environment whose agent state files are all missing
(scenario D style: no staged readiness flag). -/
def execEnvMissing : ExecEnv :=
  { townRoot := "town"
    sessionFor := fun _ => "gt-town-deacon"
    readFile := fun _ => AgentStateFile.missing
    hasSession := fun _ => Except.ok true
    killResult := fun _ => Except.ok ()
    restartResult := fun _ => Except.ok () }

/-- A cycle request from the deacon. -/
def reqCycleDeacon : LifecycleRequest :=
  { fromAddr := "deacon", action := LifecycleAction.cycle, timestamp := 0 }

/-- A mail environment whose bodies decode to a restart action and
whose messages are one minute old. -/
def mailEnvW : MailEnv :=
  { jsonAction := fun _ => some "restart"
    parseRFC3339 := fun _ => some 0
    now := 60
    deleteOk := fun _ => true }

/-- The same mail environment observed seven hours after the message
timestamp (scenario C: past the six-hour maximum age). -/
def mailEnvStaleW : MailEnv :=
  { jsonAction := fun _ => some "restart"
    parseRFC3339 := fun _ => some 0
    now := 7 * 60 * 60
    deleteOk := fun _ => true }

/-- An unread lifecycle restart message from the deacon. -/
def msgRestartW : BeadsMessage :=
  { id := "m1"
    fromAddr := "deacon"
    subject := "LIFECYCLE: restart"
    body := "x"
    timestamp := "2025-01-01T00:00:00Z"
    read := false }

/-- The request `msgRestartW` parses to under `mailEnvW`. -/
def reqRestartW : LifecycleRequest :=
  { fromAddr := "deacon", action := LifecycleAction.restart, timestamp := 60 }

/-- The request `msgRestartW` parses to under `mailEnvStaleW`. -/
def reqRestartStaleW : LifecycleRequest :=
  { fromAddr := "deacon", action := LifecycleAction.restart,
    timestamp := 7 * 60 * 60 }

/-- Sample crew identity used by the round-trip witness below. -/
def crewSample : AgentIdentity :=
  { role := Role.crew, rig := ['g', 'a', 's'], name := ['m', 'a', 'x'] }

/-- Polecat identity with a hyphenated name, used by the round-trip
counterexample below. -/
def polecatHyphen : AgentIdentity :=
  { role := Role.polecat, rig := ['g', 'a', 's'], name := ['a', '-', 'b'] }

end GT

open GT

/-! ### Lemmas on the Go string helpers -/

theorem gSplit_ne_nil (sep : Char) (s : List Char) : gSplit sep s ≠ [] := by
  cases s with
  | nil => simp [gSplit]
  | cons c rest =>
    simp only [gSplit]
    cases h : gSplit sep rest with
    | nil => simp
    | cons p ps =>
      by_cases hc : c = sep <;> simp [hc]

theorem gSplit_exists_cons (sep : Char) (s : List Char) :
    ∃ p ps, gSplit sep s = p :: ps := by
  cases h : gSplit sep s with
  | nil => exact absurd h (gSplit_ne_nil sep s)
  | cons p ps => exact ⟨p, ps, rfl⟩

theorem gSplit_append (sep : Char) (a b : List Char) :
    gSplit sep (a ++ sep :: b) = gSplit sep a ++ gSplit sep b := by
  induction a with
  | nil =>
    obtain ⟨p, ps, h⟩ := gSplit_exists_cons sep b
    simp [gSplit, h]
  | cons c a ih =>
    obtain ⟨q, qs, hq⟩ := gSplit_exists_cons sep a
    have hx : gSplit sep (a ++ sep :: b) = q :: (qs ++ gSplit sep b) := by
      rw [ih, hq, List.cons_append]
    by_cases hc : c = sep <;>
      simp [gSplit, hx, hq, hc]

theorem gSplit_sepFree (sep : Char) (s : List Char) (h : sep ∉ s) :
    gSplit sep s = [s] := by
  induction s with
  | nil => simp [gSplit]
  | cons c rest ih =>
    have hc : c ≠ sep := fun hc => h (hc ▸ List.mem_cons_self c rest)
    have hr : sep ∉ rest := fun hr => h (List.mem_cons_of_mem c hr)
    simp [gSplit, ih hr, hc]

theorem gJoin_single (sep : Char) (x : List Char) : gJoin sep [x] = x := rfl

theorem gJoin_cons_cons (sep : Char) (x y : List Char) (ys : List (List Char)) :
    gJoin sep (x :: y :: ys) = x ++ sep :: gJoin sep (y :: ys) := rfl

theorem gJoin_gSplit (sep : Char) (s : List Char) :
    gJoin sep (gSplit sep s) = s := by
  induction s with
  | nil => simp [gSplit, gJoin]
  | cons c rest ih =>
    obtain ⟨p, ps, h⟩ := gSplit_exists_cons sep rest
    rw [h] at ih
    have hg : gSplit sep (c :: rest) =
        if c = sep then [] :: p :: ps else (c :: p) :: ps := by
      simp [gSplit, h]
    by_cases hc : c = sep
    · rw [hg, if_pos hc]
      cases ps with
      | nil =>
        rw [gJoin_cons_cons, List.nil_append, hc, ← ih, gJoin_single]
      | cons q qs =>
        rw [gJoin_cons_cons, List.nil_append, hc, ← ih]
    · rw [hg, if_neg hc]
      cases ps with
      | nil =>
        rw [gJoin_single] at ih ⊢
        rw [ih]
      | cons q qs =>
        rw [gJoin_cons_cons] at ih ⊢
        rw [List.cons_append, ih]

theorem lastD_concat (d x : List Char) (l : List (List Char)) :
    lastD d (l ++ [x]) = x := by
  induction l with
  | nil => simp [lastD]
  | cons p l ih =>
    cases l with
    | nil => simp [lastD]
    | cons q l => simpa [lastD] using ih

theorem goHasPre_gt (sfx : GoStr) : goHasPre gtPreS (gtPreS ++ sfx) = true := by
  simp [goHasPre, gtPreS]

theorem ParseSessionName_append (sfx : GoStr) (hne : sfx ≠ []) :
    ParseSessionName (gtPreS ++ sfx) = parseParts (gSplit dash sfx) := by
  unfold ParseSessionName
  rw [goHasPre_gt]
  have hdrop : (gtPreS ++ sfx).drop 3 = sfx := by simp [gtPreS]
  simp [hdrop, hne]

theorem markers_distinct :
    deaconS ≠ mayorS ∧ witnessS ≠ mayorS ∧ witnessS ≠ deaconS ∧
      refineryS ≠ mayorS ∧ refineryS ≠ deaconS ∧ refineryS ≠ witnessS := by
  decide

theorem findCrewIdx_three (x y : GoStr) : findCrewIdx [x, crewS, y] = some 1 := by
  simp [findCrewIdx, findCrewAux]

theorem findCrewIdx_two (x y : GoStr) : findCrewIdx [x, y] = none := by
  simp [findCrewAux, findCrewIdx]

/-- C4 (amended).  The session-name round trip is lossless for the
mayor, deacon, witness and refinery roles with any town or rig value
(unused fields empty), and for crew and polecat identities whose rig
and name contain no hyphen and whose name is none of the reserved
suffix markers mayor, deacon, witness, refinery; the unrestricted
claim is refuted by the counterexample below. -/
theorem claim_C4 (a : AgentIdentity) (h : GoodIdentity a) :
    ParseSessionName a.SessionName = some a := by
  obtain ⟨role, town, rig, name⟩ := a
  obtain ⟨hd1, hd2, hd3, hd4, hd5, hd6⟩ := markers_distinct
  cases role with
  | mayor =>
    obtain ⟨hr, hn⟩ := h
    subst hr; subst hn
    have hsp : gSplit dash (town ++ dash :: mayorS) =
        gSplit dash town ++ [mayorS] := by
      rw [gSplit_append, gSplit_sepFree dash mayorS (by decide)]
    show ParseSessionName (gtPreS ++ town ++ dash :: mayorS) = _
    rw [List.append_assoc, ParseSessionName_append _ (by simp), hsp]
    simp [parseParts,
      lastD_concat, List.dropLast_concat, gJoin_gSplit]
    exact List.length_pos.mpr (gSplit_ne_nil dash town)
  | deacon =>
    obtain ⟨hr, hn⟩ := h
    subst hr; subst hn
    have hsp : gSplit dash (town ++ dash :: deaconS) =
        gSplit dash town ++ [deaconS] := by
      rw [gSplit_append, gSplit_sepFree dash deaconS (by decide)]
    show ParseSessionName (gtPreS ++ town ++ dash :: deaconS) = _
    rw [List.append_assoc, ParseSessionName_append _ (by simp), hsp]
    simp [parseParts,
      lastD_concat, List.dropLast_concat, gJoin_gSplit, hd1]
    exact List.length_pos.mpr (gSplit_ne_nil dash town)
  | witness =>
    obtain ⟨ht, hn⟩ := h
    subst ht; subst hn
    have hsp : gSplit dash (rig ++ dash :: witnessS) =
        gSplit dash rig ++ [witnessS] := by
      rw [gSplit_append, gSplit_sepFree dash witnessS (by decide)]
    show ParseSessionName (gtPreS ++ rig ++ dash :: witnessS) = _
    rw [List.append_assoc, ParseSessionName_append _ (by simp), hsp]
    simp [parseParts,
      lastD_concat, List.dropLast_concat, gJoin_gSplit, hd2, hd3]
    exact List.length_pos.mpr (gSplit_ne_nil dash rig)
  | refinery =>
    obtain ⟨ht, hn⟩ := h
    subst ht; subst hn
    have hsp : gSplit dash (rig ++ dash :: refineryS) =
        gSplit dash rig ++ [refineryS] := by
      rw [gSplit_append, gSplit_sepFree dash refineryS (by decide)]
    show ParseSessionName (gtPreS ++ rig ++ dash :: refineryS) = _
    rw [List.append_assoc, ParseSessionName_append _ (by simp), hsp]
    simp [parseParts,
      lastD_concat, List.dropLast_concat, gJoin_gSplit, hd4, hd5, hd6]
    exact List.length_pos.mpr (gSplit_ne_nil dash rig)
  | crew =>
    obtain ⟨ht, hrig, hname, hm1, hm2, hm3, hm4⟩ := h
    subst ht
    have hsp : gSplit dash (rig ++ dash :: (crewS ++ dash :: name)) =
        [rig, crewS, name] := by
      rw [gSplit_append, gSplit_sepFree dash rig hrig, gSplit_append,
        gSplit_sepFree dash crewS (by decide), gSplit_sepFree dash name hname]
      simp
    show ParseSessionName (gtPreS ++ rig ++ dash :: (crewS ++ dash :: name)) = _
    rw [List.append_assoc, ParseSessionName_append _ (by simp), hsp]
    simp [parseParts, lastD, findCrewIdx_three, gJoin_single,
      hm1, hm2, hm3, hm4]
  | polecat =>
    obtain ⟨ht, hrig, hname, hm1, hm2, hm3, hm4⟩ := h
    subst ht
    have hsp : gSplit dash (rig ++ dash :: name) = [rig, name] := by
      rw [gSplit_append, gSplit_sepFree dash rig hrig,
        gSplit_sepFree dash name hname]
      simp
    show ParseSessionName (gtPreS ++ rig ++ dash :: name) = _
    rw [List.append_assoc, ParseSessionName_append _ (by simp), hsp]
    simp [parseParts, lastD, findCrewIdx_two, gJoin_single,
      hm1, hm2, hm3, hm4]

theorem claim_C4_witness :
    GoodIdentity crewSample ∧
      ParseSessionName crewSample.SessionName = some crewSample := by
  have hg : GoodIdentity crewSample :=
    ⟨rfl, by decide, by decide, by decide, by decide, by decide, by decide⟩
  exact ⟨hg, claim_C4 crewSample hg⟩

/-- C4 counterexample: a polecat whose name contains a hyphen does not
round-trip; "gt-gas-a-b" parses back with rig "gas-a" and name "b". -/
theorem claim_C4_counterexample :
    ParseSessionName polecatHyphen.SessionName ≠ some polecatHyphen := by
  decide

/-! ### Health evaluator claims -/

/-- C2: with the liveness probe reporting a dead session, the status is
needs_respawn exactly when no death is recorded or the elapsed time
since the recorded death is at least the respawn delay, and
waiting_respawn otherwise — for every heartbeat age (the heartbeat
observation in `inp` is arbitrary). -/
theorem claim_C2 (fmtDur : Int → String) (cfg : AgentHealthConfig)
    (inp : AgentHealthInput) (h : inp.hasSession = Except.ok false) :
    ((checkAgentHealth fmtDur cfg inp).status = AgentStatus.needsRespawn ↔
      (cfg.lastDeath = none ∨
        ∃ t, cfg.lastDeath = some t ∧ inp.now - t ≥ cfg.respawnDelay)) ∧
    ((checkAgentHealth fmtDur cfg inp).status = AgentStatus.waitingRespawn ↔
      ¬(cfg.lastDeath = none ∨
        ∃ t, cfg.lastDeath = some t ∧ inp.now - t ≥ cfg.respawnDelay)) := by
  unfold checkAgentHealth
  rw [h]
  cases hld : cfg.lastDeath with
  | none => simp [respawnDelayElapsed, hld]
  | some t =>
    by_cases hge : inp.now - t ≥ cfg.respawnDelay <;>
      simp [respawnDelayElapsed, hld, hge]

theorem claim_C2_witness :
    ((checkAgentHealth fmtDurW deadCfg deadInp).status =
        AgentStatus.needsRespawn ↔
      (deadCfg.lastDeath = none ∨
        ∃ t, deadCfg.lastDeath = some t ∧
          deadInp.now - t ≥ deadCfg.respawnDelay)) ∧
    ((checkAgentHealth fmtDurW deadCfg deadInp).status =
        AgentStatus.waitingRespawn ↔
      ¬(deadCfg.lastDeath = none ∨
        ∃ t, deadCfg.lastDeath = some t ∧
          deadInp.now - t ≥ deadCfg.respawnDelay)) :=
  claim_C2 fmtDurW deadCfg deadInp rfl

/-- C3: with the session alive, a heartbeat age within the stuck
threshold is healthy; a stale heartbeat that was actually recorded is
stuck; and with no heartbeat ever recorded the result is healthy
(first-startup grace), never stuck. -/
theorem claim_C3 (fmtDur : Int → String) (cfg : AgentHealthConfig)
    (inp : AgentHealthInput) (h : inp.hasSession = Except.ok true) :
    (heartbeatAgeOf inp ≤ cfg.stuckThreshold →
      (checkAgentHealth fmtDur cfg inp).status = AgentStatus.healthy) ∧
    (∀ t, inp.lastPatrolCompleted = some t →
      heartbeatAgeOf inp > cfg.stuckThreshold →
      (checkAgentHealth fmtDur cfg inp).status = AgentStatus.stuck) ∧
    (inp.lastPatrolCompleted = none →
      (checkAgentHealth fmtDur cfg inp).status = AgentStatus.healthy) := by
  unfold checkAgentHealth
  rw [h]
  refine ⟨?_, ?_, ?_⟩
  · intro hle
    simp [not_lt.mpr hle]
  · intro t ht hgt
    simp [ht, hgt]
  · intro hnone
    by_cases hgt : heartbeatAgeOf inp > cfg.stuckThreshold <;>
      simp [hnone, hgt]

theorem claim_C3_witness :
    (heartbeatAgeOf scenarioBInp ≤ scenarioBCfg.stuckThreshold →
      (checkAgentHealth fmtDurW scenarioBCfg scenarioBInp).status =
        AgentStatus.healthy) ∧
    (∀ t, scenarioBInp.lastPatrolCompleted = some t →
      heartbeatAgeOf scenarioBInp > scenarioBCfg.stuckThreshold →
      (checkAgentHealth fmtDurW scenarioBCfg scenarioBInp).status =
        AgentStatus.stuck) ∧
    (scenarioBInp.lastPatrolCompleted = none →
      (checkAgentHealth fmtDurW scenarioBCfg scenarioBInp).status =
        AgentStatus.healthy) :=
  claim_C3 fmtDurW scenarioBCfg scenarioBInp rfl

/-- C9: a failing liveness probe degrades to healthy with a diagnostic
message; it is never classified needs_respawn, waiting_respawn or
stuck. -/
theorem claim_C9 (fmtDur : Int → String) (cfg : AgentHealthConfig)
    (inp : AgentHealthInput) (e : String)
    (h : inp.hasSession = Except.error e) :
    (checkAgentHealth fmtDur cfg inp).status = AgentStatus.healthy ∧
    (checkAgentHealth fmtDur cfg inp).message =
      "error checking session: " ++ e ∧
    (checkAgentHealth fmtDur cfg inp).status ≠ AgentStatus.needsRespawn ∧
    (checkAgentHealth fmtDur cfg inp).status ≠ AgentStatus.waitingRespawn ∧
    (checkAgentHealth fmtDur cfg inp).status ≠ AgentStatus.stuck := by
  unfold checkAgentHealth
  rw [h]
  simp

theorem claim_C9_witness :
    (checkAgentHealth fmtDurW deadCfg
        { hasSession := Except.error "tmux gone", lastPatrolCompleted := none,
          now := 0 }).status = AgentStatus.healthy ∧
    (checkAgentHealth fmtDurW deadCfg
        { hasSession := Except.error "tmux gone", lastPatrolCompleted := none,
          now := 0 }).message = "error checking session: " ++ "tmux gone" ∧
    (checkAgentHealth fmtDurW deadCfg
        { hasSession := Except.error "tmux gone", lastPatrolCompleted := none,
          now := 0 }).status ≠ AgentStatus.needsRespawn ∧
    (checkAgentHealth fmtDurW deadCfg
        { hasSession := Except.error "tmux gone", lastPatrolCompleted := none,
          now := 0 }).status ≠ AgentStatus.waitingRespawn ∧
    (checkAgentHealth fmtDurW deadCfg
        { hasSession := Except.error "tmux gone", lastPatrolCompleted := none,
          now := 0 }).status ≠ AgentStatus.stuck :=
  claim_C9 fmtDurW deadCfg _ "tmux gone" rfl

/-- C7: on a stuck classification the session is killed with its
processes exactly when the heartbeat age exceeds the fixed 30-minute
critical threshold, and nudged otherwise; in particular the spec's
scenario B (20-minute heartbeat, 10-minute threshold) is classified
stuck and nudged, not killed. -/
theorem claim_C7 (fmtDur : Int → String) (cfg : AgentHealthConfig)
    (result : AgentHealthResult) :
    (handleStuckAgent fmtDur cfg result =
        StuckRemediation.killWithProcesses cfg.sessionName ↔
      result.heartbeatAge > CriticalStuckThreshold) ∧
    (result.heartbeatAge ≤ CriticalStuckThreshold →
      ∃ m, handleStuckAgent fmtDur cfg result =
        StuckRemediation.nudge cfg.sessionName m) ∧
    CriticalStuckThreshold = 30 * 60 ∧
    (checkAgentHealth fmtDur scenarioBCfg scenarioBInp).status =
      AgentStatus.stuck ∧
    (∃ m, handleStuckAgent fmtDur scenarioBCfg
        (checkAgentHealth fmtDur scenarioBCfg scenarioBInp) =
      StuckRemediation.nudge "gt-gastown-witness" m) := by
  refine ⟨?_, ?_, rfl, rfl, ⟨_, rfl⟩⟩
  · by_cases hgt : result.heartbeatAge > CriticalStuckThreshold <;>
      simp [handleStuckAgent, hgt]
  · intro hle
    refine ⟨"HEALTH_CHECK: heartbeat stale (" ++ fmtDur result.heartbeatAge ++
      " old), please respond to confirm responsiveness", ?_⟩
    simp [handleStuckAgent, not_lt.mpr hle]

theorem claim_C7_witness :
    ∃ m, handleStuckAgent fmtDurW scenarioBCfg stuckResultW =
      StuckRemediation.nudge scenarioBCfg.sessionName m :=
  (claim_C7 fmtDurW scenarioBCfg stuckResultW).2.1 (by decide)

/-! ### Respawn policy table claim -/

/-- C8: the policy lookup is total, and every role outside the static
table receives exactly the conservative default of a 5-minute delay,
15-minute stuck threshold and the always trigger. -/
theorem claim_C8 (role : String)
    (h : DefaultRespawnConfigs.lookup role = none) :
    GetRespawnConfig role =
      { delay := 5 * 60, stuckThreshold := 15 * 60, trigger := "always" } := by
  unfold GetRespawnConfig
  rw [h]

theorem claim_C8_witness :
    GetRespawnConfig "polecat" =
      { delay := 5 * 60, stuckThreshold := 15 * 60, trigger := "always" } :=
  claim_C8 "polecat" rfl

/-! ### Persisted state claim -/

/-- C10: scheduling a respawn rewrites exactly the scheduled agent's
entry — session, exit reason, exit time, and a respawn time equal to
the exit time plus the role's configured delay — and leaves every
other agent's entry unchanged. -/
theorem claim_C10 (s : State) (agentID session role exitReason : String)
    (now : Int) :
    (∃ a, (s.ScheduleRespawn agentID session role exitReason now).agents
          agentID = some a ∧
        a.session = session ∧ a.exitReason = exitReason ∧
        a.lastExitedAt = some now ∧
        a.respawnScheduledAt = some (now + (GetRespawnConfig role).delay)) ∧
    (∀ k, k ≠ agentID →
      (s.ScheduleRespawn agentID session role exitReason now).agents k =
        s.agents k) := by
  constructor
  · refine ⟨{ (s.agents agentID).getD {} with
        session := session
        exitReason := exitReason
        lastExitedAt := some now
        respawnScheduledAt := some (now + (GetRespawnConfig role).delay) },
      ?_, rfl, rfl, rfl, rfl⟩
    simp [State.ScheduleRespawn, State.GetAgentState]
  · intro k hk
    simp [State.ScheduleRespawn, State.GetAgentState, hk]

theorem claim_C10_witness :
    (∃ a, (State.ScheduleRespawn {} "gastown/witness" "gt-gastown-witness"
          "witness" "crash" 100).agents "gastown/witness" = some a ∧
        a.session = "gt-gastown-witness" ∧ a.exitReason = "crash" ∧
        a.lastExitedAt = some 100 ∧
        a.respawnScheduledAt = some (100 + (GetRespawnConfig "witness").delay)) ∧
    (State.ScheduleRespawn {} "gastown/witness" "gt-gastown-witness"
        "witness" "crash" 100).agents "deacon" = ({} : State).agents "deacon" :=
  ⟨(claim_C10 {} "gastown/witness" "gt-gastown-witness" "witness" "crash"
      100).1,
    (claim_C10 {} "gastown/witness" "gt-gastown-witness" "witness" "crash"
      100).2 "deacon" (by decide)⟩

/-! ### Lifecycle processor lemmas -/

theorem parseIdentity_roleType (identity : String) (p : ParsedIdentity)
    (h : parseIdentity identity = Except.ok p) :
    p.roleType = "mayor" ∨ p.roleType = "deacon" ∨ p.roleType = "witness" ∨
      p.roleType = "refinery" ∨ p.roleType = "crew" ∨ p.roleType = "polecat" := by
  unfold parseIdentity at h
  repeat' split at h
  all_goals cases h
  all_goals simp

theorem str_append_ne_empty (a b : String) (hb : b ≠ "") : a ++ b ≠ "" := by
  intro h
  apply hb
  have hd := congrArg String.data h
  rw [String.data_append] at hd
  have hbd : b.data = [] := (List.append_eq_nil.mp hd).2
  cases b with
  | mk l => cases hbd; rfl

theorem goJoin2_ne_left (a b : String) (ha : a ≠ "") : goJoin2 a b ≠ "" := by
  unfold goJoin2
  rw [if_neg ha]
  by_cases hb : b = ""
  · rw [if_pos hb]; exact ha
  · rw [if_neg hb]; exact str_append_ne_empty _ _ hb

theorem goJoin2_ne_right (a b : String) (hb : b ≠ "") : goJoin2 a b ≠ "" := by
  unfold goJoin2
  by_cases ha : a = ""
  · rw [if_pos ha]; exact hb
  · rw [if_neg ha, if_neg hb]; exact str_append_ne_empty _ _ hb

theorem goJoin2_empty_left (b : String) : goJoin2 "" b = b := by
  simp [goJoin2]

theorem goJoin_pair (a b : String) : goJoin [a, b] = goJoin2 a b := by
  simp [goJoin, List.foldl, goJoin2_empty_left]

theorem goJoin_triple (a b c : String) :
    goJoin [a, b, c] = goJoin2 (goJoin2 a b) c := by
  simp [goJoin, List.foldl, goJoin2_empty_left]

theorem goJoin_quad (a b c d : String) :
    goJoin [a, b, c, d] = goJoin2 (goJoin2 (goJoin2 a b) c) d := by
  simp [goJoin, List.foldl, goJoin2_empty_left]

theorem getWorkDirDefault_ne (townRoot : String) (p : ParsedIdentity)
    (hroot : townRoot ≠ "")
    (hrt : p.roleType = "mayor" ∨ p.roleType = "deacon" ∨
      p.roleType = "witness" ∨ p.roleType = "refinery" ∨
        p.roleType = "crew" ∨ p.roleType = "polecat") :
    getWorkDirDefault townRoot p ≠ "" := by
  unfold getWorkDirDefault
  rcases hrt with h1 | h1 | h1 | h1 | h1 | h1 <;> rw [h1] <;> simp
  · exact hroot
  · exact hroot
  · exact goJoin_pair townRoot p.rigName ▸ goJoin2_ne_left _ _ hroot
  · exact goJoin_quad townRoot p.rigName "refinery" "rig" ▸
      goJoin2_ne_right _ _ (by decide)
  · exact goJoin_quad townRoot p.rigName "crew" p.agentName ▸
      goJoin2_ne_left _ _ (goJoin2_ne_right _ _ (by decide))
  · exact goJoin_quad townRoot p.rigName "polecats" p.agentName ▸
      goJoin2_ne_left _ _ (goJoin2_ne_right _ _ (by decide))

theorem identityToStateFile_ne (townRoot identity : String) (p : ParsedIdentity)
    (hroot : townRoot ≠ "") (h : parseIdentity identity = Except.ok p) :
    identityToStateFile townRoot identity ≠ "" := by
  have hrt := parseIdentity_roleType identity p h
  have hwd := getWorkDirDefault_ne townRoot p hroot hrt
  unfold identityToStateFile
  simp only [h]
  rw [if_neg hwd]
  rcases hrt with h1 | h1 | h1 | h1 | h1 | h1 <;> rw [h1] <;> simp
  · exact goJoin_triple townRoot "mayor" "state.json" ▸
      goJoin2_ne_right _ _ (by decide)
  · exact goJoin_triple townRoot "deacon" "state.json" ▸
      goJoin2_ne_right _ _ (by decide)
  · exact goJoin_quad townRoot p.rigName "witness" "state.json" ▸
      goJoin2_ne_right _ _ (by decide)
  · exact goJoin_quad townRoot p.rigName "refinery" "state.json" ▸
      goJoin2_ne_right _ _ (by decide)
  · exact goJoin_pair (getWorkDirDefault townRoot p) "state.json" ▸
      goJoin2_ne_right _ _ (by decide)
  · exact goJoin_pair (getWorkDirDefault townRoot p) "state.json" ▸
      goJoin2_ne_right _ _ (by decide)

theorem verify_ok_flag (env : ExecEnv) (identity : String)
    (action : LifecycleAction)
    (h : verifyAgentRequestingState env identity action = Except.ok ()) :
    identityToStateFile env.townRoot identity = "" ∨
      ∃ fields,
        env.readFile (identityToStateFile env.townRoot identity) =
          AgentStateFile.valid fields ∧
        fields ("requesting_" ++ actionString action) =
          some (GoVal.bool true) := by
  unfold verifyAgentRequestingState at h
  by_cases hsf : identityToStateFile env.townRoot identity = ""
  · exact Or.inl hsf
  · right
    rw [if_neg hsf] at h
    cases hf : env.readFile (identityToStateFile env.townRoot identity) with
    | missing => rw [hf] at h; cases h
    | readError e => rw [hf] at h; cases h
    | invalid e => rw [hf] at h; cases h
    | valid fields =>
      simp only [hf] at h
      refine ⟨fields, rfl, ?_⟩
      cases hk : fields ("requesting_" ++ actionString action) with
      | none => exact absurd (by simp only [hk] at h; exact h) (by simp)
      | some v =>
        simp only [hk] at h
        cases v with
        | bool b =>
          cases b with
          | false => cases h
          | true => rfl
        | str s => cases h
        | num n => cases h
        | null => cases h

theorem exec_ops_inv (env : ExecEnv) (req : LifecycleRequest)
    (h : (executeLifecycleAction env req).2 ≠ []) :
    identityToSession env req.fromAddr ≠ "" ∧
      verifyAgentRequestingState env req.fromAddr req.action =
        Except.ok () := by
  unfold executeLifecycleAction at h
  by_cases hs : identityToSession env req.fromAddr = ""
  · rw [if_pos hs] at h
    simp at h
  · refine ⟨hs, ?_⟩
    rw [if_neg hs] at h
    cases hv : verifyAgentRequestingState env req.fromAddr req.action with
    | error e => rw [hv] at h; simp at h
    | ok u => cases u; rfl

theorem session_ne_parse (env : ExecEnv) (identity : String)
    (h : identityToSession env identity ≠ "") :
    ∃ p, parseIdentity identity = Except.ok p := by
  unfold identityToSession at h
  cases hp : parseIdentity identity with
  | error e => rw [hp] at h; simp at h
  | ok p => exact ⟨p, rfl⟩

/-! ### Lifecycle claims -/

/-- C5: a lifecycle action kills or restarts a session only when the
requester's durable state file carries requesting_action = true
(given a nonempty workspace root, under which a state-file path always
exists for a parseable requester); a missing state file, an absent
key, or a non-true value makes the action fail with an error, with no
session command issued — and the request is not retried, the message
having been consumed before execution (claim C1). -/
theorem claim_C5 (env : ExecEnv) (req : LifecycleRequest)
    (hroot : env.townRoot ≠ "") :
    ((∃ s, TmuxOp.killSession s ∈ (executeLifecycleAction env req).2 ∨
        TmuxOp.restartSession s ∈ (executeLifecycleAction env req).2) →
      ∃ fields,
        env.readFile (identityToStateFile env.townRoot req.fromAddr) =
          AgentStateFile.valid fields ∧
        fields ("requesting_" ++ actionString req.action) =
          some (GoVal.bool true)) ∧
    ((env.readFile (identityToStateFile env.townRoot req.fromAddr) =
        AgentStateFile.missing ∨
      (∃ fields,
        env.readFile (identityToStateFile env.townRoot req.fromAddr) =
          AgentStateFile.valid fields ∧
        (fields ("requesting_" ++ actionString req.action) = none ∨
          ∃ v, fields ("requesting_" ++ actionString req.action) = some v ∧
            v ≠ GoVal.bool true))) →
      (∃ e, (executeLifecycleAction env req).1 = Except.error e) ∧
        (executeLifecycleAction env req).2 = []) := by
  constructor
  · rintro ⟨s, hop⟩
    have hne : (executeLifecycleAction env req).2 ≠ [] := by
      intro hnil
      rw [hnil] at hop
      rcases hop with hop | hop <;> simp at hop
    obtain ⟨hs, hv⟩ := exec_ops_inv env req hne
    obtain ⟨p, hp⟩ := session_ne_parse env req.fromAddr hs
    rcases verify_ok_flag env req.fromAddr req.action hv with hsf | hflag
    · exact absurd hsf (identityToStateFile_ne env.townRoot req.fromAddr p hroot hp)
    · exact hflag
  · intro hbad
    by_cases hs : identityToSession env req.fromAddr = ""
    · constructor
      · exact ⟨"unknown agent identity: " ++ req.fromAddr,
          by simp [executeLifecycleAction, hs]⟩
      · simp [executeLifecycleAction, hs]
    · obtain ⟨p, hp⟩ := session_ne_parse env req.fromAddr hs
      have hsf : identityToStateFile env.townRoot req.fromAddr ≠ "" :=
        identityToStateFile_ne env.townRoot req.fromAddr p hroot hp
      have hv : ∃ e, verifyAgentRequestingState env req.fromAddr req.action =
          Except.error e := by
        unfold verifyAgentRequestingState
        rw [if_neg hsf]
        rcases hbad with hmiss | ⟨fields, hval, hbadf⟩
        · rw [hmiss]
          exact ⟨_, rfl⟩
        · simp only [hval]
          rcases hbadf with hnone | ⟨v, hvk, hvne⟩
          · simp only [hnone]
            exact ⟨_, rfl⟩
          · simp only [hvk]
            cases v with
            | bool b =>
              cases b with
              | true => exact absurd rfl hvne
              | false => exact ⟨_, rfl⟩
            | str s => exact ⟨_, rfl⟩
            | num n => exact ⟨_, rfl⟩
            | null => exact ⟨_, rfl⟩
      obtain ⟨e, he⟩ := hv
      constructor
      · exact ⟨"state verification failed: " ++ e,
          by simp [executeLifecycleAction, hs, he]⟩
      · simp [executeLifecycleAction, hs, he]

theorem claim_C5_witness :
    (∃ e, (executeLifecycleAction execEnvMissing reqCycleDeacon).1 =
        Except.error e) ∧
      (executeLifecycleAction execEnvMissing reqCycleDeacon).2 = [] :=
  (claim_C5 execEnvMissing reqCycleDeacon (by decide)).2 (Or.inl rfl)

theorem processMessage_executed_inv (menv : MailEnv) (eenv : ExecEnv)
    (msg : BeadsMessage) (req : LifecycleRequest) (r : Except String Unit)
    (ops : List TmuxOp)
    (h : LoopEvent.executed req r ops ∈ processMessage menv eenv msg) :
    msg.read = false ∧ parseLifecycleRequest menv msg = some req ∧
      ∀ eenv2 : ExecEnv, processMessage menv eenv2 msg =
        [LoopEvent.deleted msg.id,
          LoopEvent.executed req (executeLifecycleAction eenv2 req).1
            (executeLifecycleAction eenv2 req).2] := by
  cases hr : msg.read with
  | true =>
    have hsh : processMessage menv eenv msg = [] := by
      unfold processMessage
      rw [hr, if_pos rfl]
    rw [hsh] at h
    simp at h
  | false =>
    cases hp : parseLifecycleRequest menv msg with
    | none =>
      have hsh : processMessage menv eenv msg = [] := by
        unfold processMessage
        rw [hr, if_neg Bool.false_ne_true, hp]
      rw [hsh] at h
      simp at h
    | some req0 =>
      cases ht : menv.parseRFC3339 msg.timestamp with
      | some t =>
        by_cases hst : menv.now - t > MaxLifecycleMessageAge
        · have hsh : processMessage menv eenv msg =
              [LoopEvent.deleted msg.id] := by
            unfold processMessage
            rw [hr, if_neg Bool.false_ne_true, hp]
            simp only [ht]
            rw [if_pos hst]
          rw [hsh] at h
          simp at h
        · have hsh : ∀ eenv2 : ExecEnv, processMessage menv eenv2 msg =
              [LoopEvent.deleted msg.id,
                LoopEvent.executed req0 (executeLifecycleAction eenv2 req0).1
                  (executeLifecycleAction eenv2 req0).2] := by
            intro eenv2
            unfold processMessage
            rw [hr, if_neg Bool.false_ne_true, hp]
            simp only [ht]
            rw [if_neg hst]
          rw [hsh eenv] at h
          simp at h
          obtain ⟨hreq, -, -⟩ := h
          refine ⟨rfl, ?_, ?_⟩
          · exact congrArg some hreq.symm
          · intro eenv2
            rw [hsh eenv2, hreq]
      | none =>
        have hsh : ∀ eenv2 : ExecEnv, processMessage menv eenv2 msg =
            [LoopEvent.deleted msg.id,
              LoopEvent.executed req0 (executeLifecycleAction eenv2 req0).1
                (executeLifecycleAction eenv2 req0).2] := by
          intro eenv2
          unfold processMessage
          rw [hr, if_neg Bool.false_ne_true, hp]
          simp only [ht]
        rw [hsh eenv] at h
        simp at h
        obtain ⟨hreq, -, -⟩ := h
        refine ⟨rfl, ?_, ?_⟩
        · exact congrArg some hreq.symm
        · intro eenv2
          rw [hsh eenv2, hreq]

/-- C1: a lifecycle message accepted for execution is deleted before
the action runs — its loop trace is exactly the delete followed by the
single execution — and afterwards the message is absent from the inbox
whatever the execution backend did (success or failure); the trace
contains no second execution and nothing requeues the message. -/
theorem claim_C1 (menv : MailEnv) (eenv : ExecEnv) (msgs : List BeadsMessage)
    (msg : BeadsMessage) (req : LifecycleRequest) (r : Except String Unit)
    (ops : List TmuxOp) (hmem : msg ∈ msgs)
    (hex : LoopEvent.executed req r ops ∈ processMessage menv eenv msg)
    (hdel : menv.deleteOk msg.id = true) :
    processMessage menv eenv msg =
      [LoopEvent.deleted msg.id, LoopEvent.executed req r ops] ∧
    ∀ eenv2 : ExecEnv,
      msg ∉ inboxAfter menv.deleteOk msgs
        (ProcessLifecycleRequests menv eenv2 msgs) := by
  obtain ⟨hread, hparse, hshape⟩ :=
    processMessage_executed_inv menv eenv msg req r ops hex
  constructor
  · rw [hshape eenv] at hex ⊢
    simp at hex
    obtain ⟨hrr, hops⟩ := hex
    rw [hrr, hops]
  · intro eenv2 hin
    have hdel2 : LoopEvent.deleted msg.id ∈
        ProcessLifecycleRequests menv eenv2 msgs := by
      unfold ProcessLifecycleRequests
      refine List.mem_flatMap.mpr ⟨msg, hmem, ?_⟩
      rw [hshape eenv2]
      exact List.mem_cons_self _ _
    have hiss : deleteIssued (ProcessLifecycleRequests menv eenv2 msgs)
        msg.id = true := by
      unfold deleteIssued
      rw [List.any_eq_true]
      exact ⟨LoopEvent.deleted msg.id, hdel2, by simp⟩
    unfold inboxAfter at hin
    have hfil := (List.mem_filter.mp hin).2
    rw [hiss, hdel] at hfil
    simp at hfil

theorem claim_C1_witness :
    processMessage mailEnvW execEnvMissing msgRestartW =
      [LoopEvent.deleted "m1",
        LoopEvent.executed reqRestartW
          (executeLifecycleAction execEnvMissing reqRestartW).1
          (executeLifecycleAction execEnvMissing reqRestartW).2] ∧
    ∀ eenv2 : ExecEnv,
      msgRestartW ∉ inboxAfter mailEnvW.deleteOk [msgRestartW]
        (ProcessLifecycleRequests mailEnvW eenv2 [msgRestartW]) :=
  claim_C1 mailEnvW execEnvMissing [msgRestartW] msgRestartW reqRestartW
    (executeLifecycleAction execEnvMissing reqRestartW).1
    (executeLifecycleAction execEnvMissing reqRestartW).2
    (List.mem_singleton.mpr rfl) (by decide) rfl

/-- C6: an unread lifecycle message whose parsed timestamp is more than
six hours old is deleted from the inbox with no execution step — the
loop trace for it is exactly the delete. -/
theorem claim_C6 (menv : MailEnv) (eenv : ExecEnv) (msg : BeadsMessage)
    (req : LifecycleRequest) (t : Int)
    (hread : msg.read = false)
    (hparse : parseLifecycleRequest menv msg = some req)
    (ht : menv.parseRFC3339 msg.timestamp = some t)
    (hstale : menv.now - t > MaxLifecycleMessageAge) :
    processMessage menv eenv msg = [LoopEvent.deleted msg.id] ∧
    ∀ req2 r ops, LoopEvent.executed req2 r ops ∉
      processMessage menv eenv msg := by
  have hmain : processMessage menv eenv msg = [LoopEvent.deleted msg.id] := by
    unfold processMessage
    rw [hread, if_neg Bool.false_ne_true, hparse]
    simp only [ht]
    rw [if_pos hstale]
  refine ⟨hmain, fun req2 r ops hmem => ?_⟩
  rw [hmain] at hmem
  simp at hmem

theorem claim_C6_witness :
    processMessage mailEnvStaleW execEnvMissing msgRestartW =
      [LoopEvent.deleted "m1"] ∧
    ∀ req2 r ops, LoopEvent.executed req2 r ops ∉
      processMessage mailEnvStaleW execEnvMissing msgRestartW :=
  claim_C6 mailEnvStaleW execEnvMissing msgRestartW reqRestartStaleW 0
    rfl (by decide) rfl (by decide)
